import Mathlib

set_option maxRecDepth 4000

/-!
Verification of the psplus-api repository's refresh/cache subsystem against
its natural-language specification.

The JavaScript sources are embedded shallowly:

* `src/unnamed/part_000` (the Express routes file): `fnv1a32`, `shortId`,
  `sortByName` (line 72), the `/all-games` de-duplication, and the
  cache-invalidation refresh listener.
* `src/refresher.js`: `THREE_DAYS_MS`, `needsRefresh`, `sortByName`
  (lines 68-74), `generateAllMerged`, `refreshOnce`, `addRefreshListener`.

JavaScript 32-bit integer coercions (`<<`, `^`, `>>> 0`) are modelled on
`Int`/`Nat` with explicit `% 2^32` arithmetic; strings handed to the hash are
modelled as their list of `charCodeAt` values (natural numbers; for the ASCII
inputs the spec's claims quantify over, the char-code sequence coincides with
the byte sequence).
-/

namespace PSPlus

/-! ### JavaScript 32-bit number coercions

`toUint32` models the ECMAScript `x >>> 0` coercion (ToUint32) and `toInt32`
models ToInt32, for JS numbers holding exact integers (every value in this
program stays far below 2^53, so double rounding never occurs). -/

def toUint32 (x : Int) : Nat := (x % 4294967296).toNat

def toInt32 (x : Int) : Int := (x + 2147483648) % 4294967296 - 2147483648

/-- JS `x << k`: ToInt32 the operand, shift the 32-bit pattern, reinterpret
as a signed 32-bit integer. -/
def jsShl (x : Int) (k : Nat) : Int := toInt32 (toInt32 x * 2 ^ k)

/-- JS `x ^ y`: XOR the two 32-bit patterns, reinterpret signed. -/
def jsXor (x y : Int) : Int := toInt32 ((Nat.xor (toUint32 x) (toUint32 y) : Nat) : Int)

/-! ### `fnv1a32` and `shortId` from `src/unnamed/part_000` lines 17-32 -/

/-- One iteration of the hash loop in `fnv1a32` (part_000 lines 19-23):
`h ^= str.charCodeAt(i);` then
`h = (h + ((h << 1) + (h << 4) + (h << 7) + (h << 8) + (h << 24))) >>> 0;`. -/
def fnvStep (h : Int) (c : Nat) : Int :=
  let hx := jsXor h (c : Int)
  ((toUint32 (hx + (jsShl hx 1 + jsShl hx 4 + jsShl hx 7 + jsShl hx 8 + jsShl hx 24)) : Nat) : Int)

/-- `fnv1a32` (part_000 lines 17-25): fold `fnvStep` over the char codes of
the input string, starting from the FNV offset basis `0x811c9dc5 = 2166136261`,
and return `h >>> 0`. -/
def fnv1a32 (cs : List Nat) : Nat := toUint32 (cs.foldl fnvStep 2166136261)

/-- Reference algorithm written from the spec's words (section 4.1 / claim C3):
FNV-1a 32-bit — offset basis `0x811c9dc5`, XOR-fold each input byte, multiply
by the FNV prime 16777619 modulo 2^32. -/
def fnv1a32Spec (cs : List Nat) : Nat :=
  cs.foldl (fun h c => Nat.xor h c * 16777619 % 4294967296) 2166136261

/-- Base-36 digit characters, lowercase, as produced by JS
`Number.prototype.toString(36)`: `0`-`9` then `a`-`z`. -/
def base36Digit (d : Nat) : Char :=
  if d < 10 then Char.ofNat (48 + d) else Char.ofNat (87 + d)

/-- Digit-extraction loop for base 36, fuel-guarded in the style of core's
`Nat.toDigitsCore` (the fuel in `natToBase36` always suffices). -/
def toBase36Core : Nat → Nat → List Char → List Char
  | 0, _, ds => ds
  | fuel + 1, n, ds =>
    let d := base36Digit (n % 36)
    if n / 36 = 0 then d :: ds else toBase36Core fuel (n / 36) (d :: ds)

/-- JS `n.toString(36)` for a non-negative integer `n`. The result is already
lowercase, so the `.toLowerCase()` call in `shortId` is the identity. -/
def natToBase36 (n : Nat) : List Char := toBase36Core (n + 1) n []

/-- `shortId` (part_000 lines 27-32): render the hash in base 36, prepend
`"000000"`, and keep the last six characters (`.slice(-6)`). -/
def shortId (cs : List Nat) : List Char :=
  let b := natToBase36 (fnv1a32 cs)
  let padded := '0' :: '0' :: '0' :: '0' :: '0' :: '0' :: b
  padded.drop (padded.length - 6)

/-- Reference rendering written from the spec's words: base-36, lowercase,
left-padded with `'0'` to at least 6 characters, truncated to the last 6. -/
def shortIdSpec (cs : List Nat) : List Char :=
  let b := natToBase36 (fnv1a32Spec cs)
  let padded := List.replicate (6 - b.length) '0' ++ b
  padded.drop (padded.length - 6)

/-- Characters allowed by the spec's `^[a-z0-9]{6}$` pattern. -/
def isLowerAlnum (c : Char) : Bool :=
  ('0' ≤ c && c ≤ '9') || ('a' ≤ c && c ≤ 'z')

/-! ### Arithmetic facts about the JS coercions -/

theorem toInt32_emod (x : Int) : toInt32 x % 4294967296 = x % 4294967296 := by
  unfold toInt32
  omega

theorem toUint32_congr {x y : Int} (h : x % 4294967296 = y % 4294967296) :
    toUint32 x = toUint32 y := by
  unfold toUint32
  rw [h]

theorem toUint32_cast (n : Nat) : toUint32 (n : Int) = n % 4294967296 := by
  unfold toUint32
  omega

theorem toUint32_of_lt {n : Nat} (h : n < 4294967296) : toUint32 (n : Int) = n := by
  rw [toUint32_cast]
  omega

theorem jsShl_modeq (x : Int) (k : Nat) :
    Int.ModEq 4294967296 (jsShl x k) (x * 2 ^ k) := by
  show jsShl x k % 4294967296 = x * 2 ^ k % 4294967296
  unfold jsShl
  rw [toInt32_emod, Int.mul_emod, toInt32_emod, ← Int.mul_emod]

theorem toInt32_modeq (x : Int) : Int.ModEq 4294967296 (toInt32 x) x := toInt32_emod x

/-- The shift-add folding `h + (h<<1) + (h<<4) + (h<<7) + (h<<8) + (h<<24)`
agrees with multiplication by 16777619 modulo 2^32. -/
theorem fnvStep_modeq (z : Int) :
    (toInt32 z + (jsShl (toInt32 z) 1 + jsShl (toInt32 z) 4 + jsShl (toInt32 z) 7
      + jsShl (toInt32 z) 8 + jsShl (toInt32 z) 24)) % 4294967296
      = (z * 16777619) % 4294967296 := by
  have e0 : Int.ModEq 4294967296 (toInt32 z) z := toInt32_modeq z
  have eS : ∀ k : Nat, Int.ModEq 4294967296 (jsShl (toInt32 z) k) (z * 2 ^ k) :=
    fun k => (jsShl_modeq (toInt32 z) k).trans (e0.mul_right _)
  have esum : Int.ModEq 4294967296
      (toInt32 z + (jsShl (toInt32 z) 1 + jsShl (toInt32 z) 4 + jsShl (toInt32 z) 7
        + jsShl (toInt32 z) 8 + jsShl (toInt32 z) 24))
      (z + (z * 2 ^ 1 + z * 2 ^ 4 + z * 2 ^ 7 + z * 2 ^ 8 + z * 2 ^ 24)) :=
    e0.add (((((eS 1).add (eS 4)).add (eS 7)).add (eS 8)).add (eS 24))
  have efin : z + (z * 2 ^ 1 + z * 2 ^ 4 + z * 2 ^ 7 + z * 2 ^ 8 + z * 2 ^ 24)
      = z * 16777619 := by ring
  rw [efin] at esum
  exact esum

theorem jsXor_casts {h c : Nat} (hh : h < 4294967296) (hc : c < 4294967296) :
    jsXor (h : Int) (c : Int) = toInt32 ((Nat.xor h c : Nat) : Int) := by
  unfold jsXor
  rw [toUint32_of_lt hh, toUint32_of_lt hc]

theorem toUint32_fnvBody (z : Int) :
    toUint32 (toInt32 z + (jsShl (toInt32 z) 1 + jsShl (toInt32 z) 4 + jsShl (toInt32 z) 7
      + jsShl (toInt32 z) 8 + jsShl (toInt32 z) 24)) = toUint32 (z * 16777619) :=
  toUint32_congr (fnvStep_modeq z)

theorem toUint32_mul_prime (n : Nat) :
    toUint32 ((n : Int) * 16777619) = n * 16777619 % 4294967296 := by
  have hcast : ((n : Nat) : Int) * 16777619 = ((n * 16777619 : Nat) : Int) := by
    push_cast
    ring
  rw [hcast]
  exact toUint32_cast _

/-- The JS hash loop body computes `(h XOR c) * 16777619 mod 2^32`. -/
theorem fnvStep_correct {h c : Nat} (hh : h < 4294967296) (hc : c < 4294967296) :
    fnvStep (h : Int) c = ((Nat.xor h c * 16777619 % 4294967296 : Nat) : Int) := by
  simp only [fnvStep]
  rw [jsXor_casts hh hc]
  have key : toUint32 (toInt32 ((Nat.xor h c : Nat) : Int)
        + (jsShl (toInt32 ((Nat.xor h c : Nat) : Int)) 1
          + jsShl (toInt32 ((Nat.xor h c : Nat) : Int)) 4
          + jsShl (toInt32 ((Nat.xor h c : Nat) : Int)) 7
          + jsShl (toInt32 ((Nat.xor h c : Nat) : Int)) 8
          + jsShl (toInt32 ((Nat.xor h c : Nat) : Int)) 24))
      = Nat.xor h c * 16777619 % 4294967296 :=
    (toUint32_fnvBody ((Nat.xor h c : Nat) : Int)).trans (toUint32_mul_prime (Nat.xor h c))
  exact congrArg (fun n : Nat => (n : Int)) key

theorem fnv1a32_go (cs : List Nat) :
    ∀ h : Nat, h < 4294967296 → (∀ c ∈ cs, c < 4294967296) →
      toUint32 (cs.foldl fnvStep (h : Int))
        = cs.foldl (fun h c => Nat.xor h c * 16777619 % 4294967296) h := by
  induction cs with
  | nil =>
    intro h hh _
    simpa using toUint32_of_lt hh
  | cons c cs ih =>
    intro h hh hcs
    have hc : c < 4294967296 := hcs c (List.mem_cons_self c cs)
    simp only [List.foldl_cons]
    rw [fnvStep_correct hh hc]
    exact ih _ (Nat.mod_lt _ (by omega)) (fun x hx => hcs x (List.mem_cons_of_mem _ hx))

/-- The shift-add JS implementation of FNV-1a agrees with the multiplicative
reference on every char-code sequence. -/
theorem fnv1a32_eq_spec (cs : List Nat) (hcs : ∀ c ∈ cs, c < 4294967296) :
    fnv1a32 cs = fnv1a32Spec cs := by
  unfold fnv1a32 fnv1a32Spec
  have h0 : (2166136261 : Int) = ((2166136261 : Nat) : Int) := by norm_num
  rw [h0]
  exact fnv1a32_go cs 2166136261 (by omega) hcs

/-! ### Rendering facts -/

theorem drop_replicate (a : Char) : ∀ n m : Nat,
    (List.replicate m a).drop n = List.replicate (m - n) a := by
  intro n
  induction n with
  | zero => intro m; simp
  | succ n ih =>
    intro m
    cases m with
    | zero => simp
    | succ m => rw [List.replicate_succ, List.drop_succ_cons, ih m, Nat.succ_sub_succ]

theorem lastSix_eq (b : List Char) :
    ('0' :: '0' :: '0' :: '0' :: '0' :: '0' :: b).drop
        (('0' :: '0' :: '0' :: '0' :: '0' :: '0' :: b).length - 6)
      = (List.replicate (6 - b.length) '0' ++ b).drop
        ((List.replicate (6 - b.length) '0' ++ b).length - 6) := by
  have hrep : ('0' :: '0' :: '0' :: '0' :: '0' :: '0' :: b) = List.replicate 6 '0' ++ b := rfl
  rw [hrep]
  rw [List.drop_append_eq_append_drop, List.drop_append_eq_append_drop]
  rw [drop_replicate, drop_replicate]
  simp only [List.length_append, List.length_replicate]
  congr 1
  · congr 1
    omega
  · congr 1
    omega

/-- The two renderings (pad with exactly six zeros, or pad to length at least
six) agree after truncation to the last six characters. -/
theorem shortId_eq_spec (cs : List Nat) (hcs : ∀ c ∈ cs, c < 4294967296) :
    shortId cs = shortIdSpec cs := by
  unfold shortId shortIdSpec
  rw [fnv1a32_eq_spec cs hcs]
  exact lastSix_eq _

theorem shortId_length (cs : List Nat) : (shortId cs).length = 6 := by
  unfold shortId
  simp only [List.length_drop, List.length_cons]
  omega

theorem base36Digit_alnum : ∀ d, d < 36 → isLowerAlnum (base36Digit d) = true := by decide

theorem toBase36Core_alnum : ∀ fuel n acc, (∀ c ∈ acc, isLowerAlnum c = true) →
    ∀ c ∈ toBase36Core fuel n acc, isLowerAlnum c = true := by
  intro fuel
  induction fuel with
  | zero =>
    intro n acc hacc
    simp only [toBase36Core]
    exact hacc
  | succ fuel ih =>
    intro n acc hacc
    have hd : ∀ c ∈ base36Digit (n % 36) :: acc, isLowerAlnum c = true := by
      intro c hc
      rcases List.mem_cons.mp hc with h | h
      · subst h
        exact base36Digit_alnum _ (Nat.mod_lt _ (by omega))
      · exact hacc c h
    simp only [toBase36Core]
    split
    · exact hd
    · exact ih _ _ hd

theorem natToBase36_alnum (n : Nat) : ∀ c ∈ natToBase36 n, isLowerAlnum c = true :=
  toBase36Core_alnum (n + 1) n [] (by simp)

theorem shortId_chars (cs : List Nat) : ∀ c ∈ shortId cs, isLowerAlnum c = true := by
  unfold shortId
  intro c hc
  have hmem := List.mem_of_mem_drop hc
  simp only [List.mem_cons] at hmem
  rcases hmem with h | h | h | h | h | h | h
  · subst h; decide
  · subst h; decide
  · subst h; decide
  · subst h; decide
  · subst h; decide
  · subst h; decide
  · exact natToBase36_alnum _ c h

/-- Claim C3: for every (ASCII) string input, the derived short id is
deterministic, is exactly six characters matching `^[a-z0-9]{6}$`, and equals
the spec's reference algorithm — FNV-1a 32-bit (offset basis `0x811c9dc5`,
XOR-fold each input byte, multiply by 16777619 mod 2^32) rendered in lowercase
base-36, left-padded with `'0'` to at least 6 characters and truncated to the
last 6. Inputs are quantified as byte sequences (char codes below 128), for
which charCodeAt values and bytes coincide. -/
theorem claim_C3 (cs : List Nat) (hascii : ∀ c ∈ cs, c < 128) :
    shortId cs = shortId cs
    ∧ (shortId cs).length = 6
    ∧ (∀ ch ∈ shortId cs, isLowerAlnum ch = true)
    ∧ shortId cs = shortIdSpec cs :=
  ⟨rfl, shortId_length cs, shortId_chars cs,
    shortId_eq_spec cs (fun c hc => lt_trans (hascii c hc) (by norm_num))⟩

/-- Witness for C3: the spec's example input `"10001"` (char codes
`[49, 48, 48, 48, 49]`), whose short id concretely evaluates to `"tecsz3"`. -/
theorem claim_C3_witness :
    (shortId [49, 48, 48, 48, 49] = shortIdSpec [49, 48, 48, 48, 49]
      ∧ (shortId [49, 48, 48, 48, 49]).length = 6)
    ∧ shortId [49, 48, 48, 48, 49] = ['t', 'e', 'c', 's', 'z', '3'] :=
  ⟨⟨(claim_C3 [49, 48, 48, 48, 49] (by decide)).2.2.2,
    (claim_C3 [49, 48, 48, 48, 49] (by decide)).2.1⟩,
   by decide⟩

/-! ### Data model: game records and grouped snapshots

Only the fields the claims inspect are modelled: `conceptId` (the merge key)
and `name` (the sort key, possibly absent). The remaining raw fields
(`nameEn`, `conceptUrl`, `imageUrl`, `device`, `releaseDate`) are carried
opaquely by the real records and play no role in sorting, de-duplication or
merging. -/

structure Game where
  conceptId : String
  name : Option String
deriving DecidableEq

structure Group where
  catalogKey : String
  count : Int
  games : Option (List Game)
deriving DecidableEq

/-- `grouped.flatMap(g => g.games || [])` (refresher.js line 87 and part_000
line 68): concatenate each group's games, treating an absent `games` field as
empty. -/
def flattenGroups (gs : List Group) : List Game :=
  gs.flatMap (fun g => g.games.getD [])

/-! ### The two `sortByName` implementations

`localeCompare` is locale-aware Unicode collation; it is modelled as an
abstract comparison function `lc : String → String → Int` (negative, zero or
positive). ECMA-262 requires `Array.prototype.sort` to be stable, so a sort
with comparator `cmp` is modelled as the stable `List.mergeSort` with
`le a b := cmp a b ≤ 0`. -/

/-- Comparator of `sortByName` in refresher.js lines 69-73:
`((a && a.name) || '').localeCompare((b && b.name) || '')`.
Absent names compare as the empty string. -/
def leByName (lc : String → String → Int) (a b : Game) : Bool :=
  decide (lc (a.name.getD "") (b.name.getD "") ≤ 0)

/-- `sortByName` (refresher.js lines 68-74): `games.slice().sort(cmp)` with
the null-guarded comparator. -/
def sortByName (lc : String → String → Int) (games : List Game) : List Game :=
  games.mergeSort (leByName lc)

/-- Comparator of `sortByName` in part_000 line 72:
`(a, b) => a.name.localeCompare(b.name)`. When `a.name` is absent (JS
`undefined`) the method call throws a `TypeError`; when only `b.name` is
absent, `localeCompare` coerces its argument to the string `"undefined"`. -/
def cmpRoutes (lc : String → String → Int) (a b : Game) : Except String Bool :=
  match a.name with
  | none => .error "TypeError: Cannot read properties of undefined"
  | some an => .ok (decide (lc an (b.name.getD "undefined") ≤ 0))

/-- Stable merge of two runs under a fallible comparator: the comparison
raised by the comparator propagates, as a JS comparator exception aborts
`Array.prototype.sort`. -/
def mergeE (cmp : Game → Game → Except String Bool) :
    List Game → List Game → Except String (List Game)
  | [], ys => .ok ys
  | x :: xs, [] => .ok (x :: xs)
  | x :: xs, y :: ys =>
    match cmp x y with
    | .error e => .error e
    | .ok true =>
      match mergeE cmp xs (y :: ys) with
      | .error e => .error e
      | .ok r => .ok (x :: r)
    | .ok false =>
      match mergeE cmp (x :: xs) ys with
      | .error e => .error e
      | .ok r => .ok (y :: r)
termination_by xs ys => xs.length + ys.length

/-- Stable merge sort under a fallible comparator, modelling a conforming
(stable) `Array.prototype.sort` whose comparator may throw. -/
def sortE (cmp : Game → Game → Except String Bool) :
    List Game → Except String (List Game)
  | [] => .ok []
  | [a] => .ok [a]
  | a :: b :: rest =>
    match sortE cmp ((a :: b :: rest).take ((a :: b :: rest).length / 2)),
        sortE cmp ((a :: b :: rest).drop ((a :: b :: rest).length / 2)) with
    | .error e, _ => .error e
    | .ok _, .error e => .error e
    | .ok l, .ok r => mergeE cmp l r
termination_by l => l.length
decreasing_by
  · simp only [List.length_take, List.length_cons]
    omega
  · simp only [List.length_drop, List.length_cons]
    omega

/-- `sortByName` (part_000 line 72): `arr.slice().sort((a, b) =>
a.name.localeCompare(b.name))`; the result is the sorted list, or the
`TypeError` thrown when an entry without a `name` is compared. -/
def sortByNameRoutes (lc : String → String → Int) (games : List Game) :
    Except String (List Game) :=
  sortE (cmpRoutes lc) games

/-! ### De-duplication (`/all-games`, part_000 lines 111-116) -/

/-- First-occurrence-wins de-duplication by `conceptId`, as the `/all-games`
handler performs with a JS `Map` (part_000 lines 112-115): `Map.set` on a
fresh key appends in insertion order, repeated keys are skipped, and
`Array.from(byId.values())` returns values in first-insertion order. -/
def dedupeGo (seen : List String) : List Game → List Game
  | [] => []
  | g :: rest =>
    if g.conceptId ∈ seen then dedupeGo seen rest
    else g :: dedupeGo (g.conceptId :: seen) rest

def dedupeByConceptId (l : List Game) : List Game := dedupeGo [] l

/-- Source concatenation order in the `/all-games` handler (part_000 line
113): `[...included, ...classics, ...monthly, ...ubisoft]`. -/
def allGamesOrder (included classics monthly ubisoft : List Game) : List Game :=
  included ++ classics ++ monthly ++ ubisoft

/-- Pure core of `generateAllMerged` (refresher.js lines 86-95): flatten all
parsed snapshots, sort by name with the refresher's null-guarded comparator,
and wrap in one group tagged `catalogKey: 'ALL'` whose `count` is the total
length — with no de-duplication. -/
def mergedAllPayload (lc : String → String → Int) (parsedList : List (List Group)) : Group :=
  let allGames := parsedList.flatMap flattenGroups
  let gamesSorted := sortByName lc allGames
  ⟨"ALL", (gamesSorted.length : Int), some gamesSorted⟩

/-! ### Facts about de-duplication -/

theorem dedupeGo_filter (c : String) :
    ∀ (l : List Game) (seen : List String),
      (dedupeGo seen l).filter (fun g => g.conceptId == c)
        = if c ∈ seen then [] else (l.filter (fun g => g.conceptId == c)).take 1 := by
  intro l
  induction l with
  | nil =>
    intro seen
    simp [dedupeGo]
  | cons g rest ih =>
    intro seen
    simp only [dedupeGo]
    by_cases hg : g.conceptId ∈ seen
    · rw [if_pos hg, ih seen]
      by_cases hc : c ∈ seen
      · simp [hc]
      · have hne : ¬(g.conceptId == c) = true := by
          simp only [beq_iff_eq]
          intro h
          exact hc (h ▸ hg)
        simp [hc, List.filter_cons, hne]
    · rw [if_neg hg]
      rw [List.filter_cons, ih (g.conceptId :: seen)]
      by_cases hgc : (g.conceptId == c) = true
      · have hceq : g.conceptId = c := by simpa using hgc
        have hcns : c ∉ seen := by
          intro h
          exact hg (hceq ▸ h)
        have hcin : c ∈ g.conceptId :: seen := by
          rw [← hceq]
          exact List.mem_cons_self _ _
        simp [hgc, hcin, hcns, List.filter_cons]
      · have hciff : (c ∈ g.conceptId :: seen) ↔ c ∈ seen := by
          simp only [List.mem_cons]
          constructor
          · rintro (h | h)
            · exact absurd (show (g.conceptId == c) = true by simp [h]) hgc
            · exact h
          · exact Or.inr
        by_cases hc : c ∈ seen
        · simp [hgc, hc, hciff]
        · simp [hgc, hc, hciff, List.filter_cons]

theorem dedupeGo_sublist : ∀ (l : List Game) (seen : List String),
    List.Sublist (dedupeGo seen l) l := by
  intro l
  induction l with
  | nil =>
    intro seen
    simp [dedupeGo]
  | cons g rest ih =>
    intro seen
    simp only [dedupeGo]
    by_cases hg : g.conceptId ∈ seen
    · rw [if_pos hg]
      exact (ih seen).trans (List.sublist_cons_self g rest)
    · rw [if_neg hg]
      exact (ih (g.conceptId :: seen)).cons₂ g

/-- Claim C9: in the `/all-games` merge, for every conceptId the de-duplicated
list retains exactly the first matching record of the concatenation in the
fixed priority order (included-games, classics, monthly, ubisoft-classics);
later duplicates are dropped entirely (the retained entry is the original
first record, unmerged, and the output is a sublist of the input). -/
theorem claim_C9 (included classics monthly ubisoft : List Game) (c : String) :
    ((dedupeByConceptId (allGamesOrder included classics monthly ubisoft)).filter
        (fun g => g.conceptId == c)
      = ((allGamesOrder included classics monthly ubisoft).filter
          (fun g => g.conceptId == c)).take 1)
    ∧ List.Sublist (dedupeByConceptId (allGamesOrder included classics monthly ubisoft))
        (allGamesOrder included classics monthly ubisoft) := by
  constructor
  · unfold dedupeByConceptId
    rw [dedupeGo_filter]
    simp
  · exact dedupeGo_sublist _ []

/-! ### Claim C8: the two sortByName implementations -/

/-- Claim C8 counterexample: the routes-level `sortByName` (part_000 line 72)
does not treat an absent `name` as the empty string — comparing a record
without a `name` throws a `TypeError` (modelled as an `Except.error`), so
sorting a two-element list of name-less records fails instead of returning
them in order. -/
theorem claim_C8_counterexample :
    sortByNameRoutes (fun _ _ => 0) [⟨"c1", none⟩, ⟨"c2", none⟩]
      = .error "TypeError: Cannot read properties of undefined" := by
  simp [sortByNameRoutes, sortE, mergeE, cmpRoutes]

/-- Claim C8 (amended): the refresher's `sortByName` (refresher.js lines
68-74) is a stable sort by the `name` field under the locale-compare
ordering, with absent names sorting as the empty string: the output is a
permutation of the input, pairwise ordered by the null-guarded comparator,
and any input pair already in comparator order keeps its relative order.
The routes-level `sortByName` (part_000 line 72) instead raises a `TypeError`
when it compares an entry whose `name` is absent (see the counterexample). -/
theorem claim_C8 (lc : String → String → Int)
    (htrans : ∀ x y z : String, lc x y ≤ 0 → lc y z ≤ 0 → lc x z ≤ 0)
    (htotal : ∀ x y : String, lc x y ≤ 0 ∨ lc y x ≤ 0)
    (l : List Game) :
    List.Perm (sortByName lc l) l
    ∧ List.Pairwise (fun a b => leByName lc a b = true) (sortByName lc l)
    ∧ (∀ a b : Game, List.Sublist [a, b] l → leByName lc a b = true →
        List.Sublist [a, b] (sortByName lc l)) := by
  have trans' : ∀ a b c : Game, leByName lc a b → leByName lc b c → leByName lc a c := by
    intro a b c hab hbc
    simp only [leByName, decide_eq_true_eq] at hab hbc ⊢
    exact htrans _ _ _ hab hbc
  have total' : ∀ a b : Game, leByName lc a b || leByName lc b a := by
    intro a b
    simp only [leByName]
    rcases htotal (a.name.getD "") (b.name.getD "") with h | h
    · simp [h]
    · simp [h]
  refine ⟨List.mergeSort_perm l _, ?_, ?_⟩
  · exact List.sorted_mergeSort trans' total' l
  · intro a b hsub hab
    exact List.pair_sublist_mergeSort trans' total' hab hsub

/-- Witness for C8: a constant comparator (a total preorder) and a concrete
two-element list containing a name-less record. -/
theorem claim_C8_witness :
    List.Perm (sortByName (fun _ _ => 0) [⟨"c1", some "b"⟩, ⟨"c2", none⟩])
        [⟨"c1", some "b"⟩, ⟨"c2", none⟩]
    ∧ List.Pairwise (fun a b => leByName (fun _ _ => 0) a b = true)
        (sortByName (fun _ _ => 0) [⟨"c1", some "b"⟩, ⟨"c2", none⟩])
    ∧ (∀ a b : Game, List.Sublist [a, b] [⟨"c1", some "b"⟩, ⟨"c2", none⟩] →
        leByName (fun _ _ => 0) a b = true →
        List.Sublist [a, b] (sortByName (fun _ _ => 0) [⟨"c1", some "b"⟩, ⟨"c2", none⟩])) :=
  claim_C8 (fun _ _ => 0) (fun _ _ _ _ _ => le_refl 0) (fun _ _ => Or.inl (le_refl 0))
    [⟨"c1", some "b"⟩, ⟨"c2", none⟩]

/-! ### Claim C10: the merged all.txt payload is not de-duplicated -/

/-- Claim C10: the merged payload `generateAllMerged` writes is a permutation
of the concatenation of all four flattened snapshots (so a conceptId present
in two snapshots appears twice), its `count` field counts every record
including duplicates, and its per-conceptId multiplicity equals that of the
raw concatenation; by contrast the `/all-games` pipeline
(de-duplicate, then sort) returns each conceptId at most once. -/
theorem claim_C10 (lc : String → String → Int) (t1 t2 t3 t4 : List Group) :
    List.Perm ((mergedAllPayload lc [t1, t2, t3, t4]).games.getD [])
        (flattenGroups t1 ++ flattenGroups t2 ++ flattenGroups t3 ++ flattenGroups t4)
    ∧ (mergedAllPayload lc [t1, t2, t3, t4]).count
        = (((mergedAllPayload lc [t1, t2, t3, t4]).games.getD []).length : Int)
    ∧ (∀ c : String,
        ((mergedAllPayload lc [t1, t2, t3, t4]).games.getD []).countP
            (fun g => g.conceptId == c)
          = (flattenGroups t1 ++ flattenGroups t2 ++ flattenGroups t3
              ++ flattenGroups t4).countP (fun g => g.conceptId == c))
    ∧ (∀ (l : List Game) (c : String),
        (sortByName lc (dedupeByConceptId l)).countP (fun g => g.conceptId == c) ≤ 1) := by
  have hflat : [t1, t2, t3, t4].flatMap flattenGroups
      = flattenGroups t1 ++ flattenGroups t2 ++ flattenGroups t3 ++ flattenGroups t4 := by
    simp [List.flatMap_cons, List.flatMap_nil, List.append_assoc]
  have hperm : List.Perm ((mergedAllPayload lc [t1, t2, t3, t4]).games.getD [])
      (flattenGroups t1 ++ flattenGroups t2 ++ flattenGroups t3 ++ flattenGroups t4) := by
    simp only [mergedAllPayload, Option.getD_some]
    rw [← hflat]
    exact List.mergeSort_perm _ _
  refine ⟨hperm, by simp [mergedAllPayload], fun c => hperm.countP_eq _, ?_⟩
  intro l c
  have hsort : List.Perm (sortByName lc (dedupeByConceptId l)) (dedupeByConceptId l) :=
    List.mergeSort_perm _ _
  rw [hsort.countP_eq, List.countP_eq_length_filter]
  unfold dedupeByConceptId
  rw [dedupeGo_filter]
  simp only [List.not_mem_nil, if_false]
  calc ((l.filter (fun g => g.conceptId == c)).take 1).length
      ≤ 1 := by
        rw [List.length_take]
        omega

/-! ### The refresher (`src/refresher.js`)

`refreshOnce` is embedded as a pure state transformer. The ambient
nondeterminism is captured by an environment `Env`:

* `fetch`, keyed by snapshot filename, is `fetchRaw ∘ ENDPOINTS` — the outcome
  of the HTTP GET for each source (an `Except` since axios rejects on
  network/timeout errors); a rejected per-source promise (fetch or write) is a
  `.error`.
* `parse` models `JSON.parse` on file text (`none` = throws; a parsed JSON
  `null` is folded into `some []` by the `(grouped || [])` guard).
* `serialize` models `JSON.stringify([allPayload], null, 2)` of the single
  merged group.
* `lc` is the abstract `localeCompare` and `ts` the `toISOString()` timestamp.

`Promise.allSettled` over the four sources is modelled as a fold over the
`ENDPOINTS` key order (the sources' outcomes are independent, which is all the
claims rely on); the `statuses` object keyed by filename is an association
list. Listeners may throw (`Except`); their shared mutable environment (the
routes-file cache) is a state `σ` threaded through `runListeners`. -/

def sourceNames : List String :=
  ["plus-games-list.txt", "ubisoft-classics-list.txt",
   "plus-classics-list.txt", "plus-monthly-games-list.txt"]

/-- Return value of `refreshOnce`: `{ inProgress: true }` (line 101),
`{ anyRejected, statuses }` (line 130), or `{ error, statuses }` from the
outer catch (line 134). -/
inductive RefreshResult where
  | inProgress
  | done (anyRejected : Bool) (statuses : List (String × String))
  | failed (err : String) (statuses : List (String × String))
deriving DecidableEq

/-- A refresh listener (`addRefreshListener`, refresher.js lines 21-23): a JS
callback invoked with `{ statuses }` that may mutate shared state `σ` and may
throw. -/
def Listener (σ : Type) : Type :=
  List (String × String) → σ → Except String σ

structure Env (σ : Type) where
  fetch : String → Except String String
  parse : String → Option (List Group)
  serialize : Group → String
  lc : String → String → Int
  listeners : List (Listener σ)
  ts : String

/-- Observable state threaded through `refreshOnce`: the `isRefreshing` flag,
the `full_responses` directory (filename to contents), and the listener-shared
state `σ`. -/
structure St (σ : Type) where
  isRefreshing : Bool
  files : String → Option String
  lstate : σ

def updateFile (files : String → Option String) (k v : String) : String → Option String :=
  fun q => if q = k then some v else files q

/-- The per-source fetch-then-write fan-out (refresher.js lines 108-116): a
source's file is overwritten with the fetched text exactly when its fetch
succeeded; a failed source leaves its file untouched. -/
def applyFetches (fetch : String → Except String String) :
    List String → (String → Option String) → (String → Option String)
  | [], files => files
  | n :: rest, files =>
    match fetch n with
    | .ok d => applyFetches fetch rest (updateFile files n d)
    | .error _ => applyFetches fetch rest files

def exceptOk {ε α : Type} : Except ε α → Bool
  | .ok _ => true
  | .error _ => false

/-- The `statuses` object after the fan-in: an entry
`fname ↦ "fname refreshed on ts successfully"` for each source whose fetch
succeeded (refresher.js line 113) — and, as written, nothing for a failed
source. -/
def successStatuses (fetch : String → Except String String) (ts : String) :
    List (String × String) :=
  (sourceNames.filter (fun n => exceptOk (fetch n))).map
    (fun n => (n, n ++ " refreshed on " ++ ts ++ " successfully"))

/-- `results.some(r => r.status === 'rejected')` (refresher.js line 117). -/
def anyRejected (fetch : String → Except String String) : Bool :=
  sourceNames.any (fun n => !exceptOk (fetch n))

/-- `generateAllMerged` (refresher.js lines 76-98): read the four raw files
(a missing file rejects), `JSON.parse` each (a parse failure throws), build
the merged payload, and produce the serialized text to write to `all.txt`. -/
def generateAllMerged (parse : String → Option (List Group))
    (serialize : Group → String) (lc : String → String → Int)
    (files : String → Option String) : Except String String :=
  match sourceNames.mapM files with
  | none => .error "ENOENT: no such file or directory"
  | some texts =>
    match texts.mapM parse with
    | none => .error "SyntaxError: JSON.parse"
    | some parsedList => .ok (serialize (mergedAllPayload lc parsedList))

/-- The listener notification loop (refresher.js lines 124-128):
`try { for (const fn of listeners) fn({ statuses }); } catch (e) { ... }` —
the `try` wraps the whole loop, so the first listener that throws ends the
notification; earlier listeners' state updates persist, the exception is
swallowed. -/
def runListeners {σ : Type} : List (Listener σ) → List (String × String) → σ → σ
  | [], _, s => s
  | f :: rest, m, s =>
    match f m s with
    | .ok s2 => runListeners rest m s2
    | .error _ => s

/-- `refreshOnce` (refresher.js lines 100-138). The guard returns
`{ inProgress: true }` untouched; otherwise the flag is set, the four sources
are fetched and written independently, and only if none was rejected is the
merged file regenerated, its status recorded, and the listener list notified;
the `finally` clears the flag on every exit path (including the catch path
taken when `generateAllMerged` throws). -/
def refreshOnce {σ : Type} (env : Env σ) (st : St σ) : St σ × RefreshResult :=
  if st.isRefreshing then (st, .inProgress)
  else
    let files1 := applyFetches env.fetch sourceNames st.files
    let sts := successStatuses env.fetch env.ts
    if anyRejected env.fetch then
      (⟨false, files1, st.lstate⟩, .done true sts)
    else
      match generateAllMerged env.parse env.serialize env.lc files1 with
      | .error e => (⟨false, files1, st.lstate⟩, .failed e sts)
      | .ok content =>
        let files2 := updateFile files1 "all.txt" content
        let sts2 := sts ++ [("all.txt", "all.txt refreshed on " ++ env.ts ++ " successfully")]
        (⟨false, files2, runListeners env.listeners sts2 st.lstate⟩, .done false sts2)

/-- The status map carried by a `refreshOnce` result. -/
def statusesOf : RefreshResult → List (String × String)
  | .inProgress => []
  | .done _ sts => sts
  | .failed _ sts => sts

/-! ### Staleness check (`needsRefresh`, refresher.js lines 52-62) -/

/-- `THREE_DAYS_MS` (refresher.js line 17), exactly as the source computes it:
`2 * 24 * 60 * 60 * 1000`. Despite the constant's name and the surrounding
comments ("older than 3 days"), this value is two days in milliseconds. -/
def THREE_DAYS_MS : Int := 2 * 24 * 60 * 60 * 1000

/-- `needsRefresh`: a refresh is needed iff some source file is absent
(`statOrNull` returned null) or `now - st.mtimeMs > THREE_DAYS_MS`. -/
def needsRefresh (now : Int) (mtime : String → Option Int) : Bool :=
  sourceNames.any (fun n =>
    match mtime n with
    | none => true
    | some m => decide (now - m > THREE_DAYS_MS))

/-- Three days in milliseconds — the staleness threshold stated by the spec,
by the constant's own name, by the comments in refresher.js lines 53 and 153,
and by the README ("refreshed automatically every 3 days"). -/
def threeDaysSpecMs : Int := 3 * 24 * 60 * 60 * 1000

/-! ### The routes-file cache and its invalidation listener (part_000) -/

/-- The in-memory response cache (part_000 lines 47-53): one nullable entry
per view. -/
structure Cache where
  included : Option (List Group)
  classics : Option (List Group)
  monthly : Option (List Group)
  ubisoft : Option (List Group)
  all : Option (List Group)
deriving DecidableEq

/-- The refresh listener registered in part_000 lines 56-62: set every cache
entry to null. -/
def invalidateListener : Listener Cache :=
  fun _ _ => .ok ⟨none, none, none, none, none⟩

/-! ### Facts about the fetch fan-out and the status map -/

theorem applyFetches_not_mem (fetch : String → Except String String) :
    ∀ (names : List String) (files : String → Option String) (k : String),
      k ∉ names → applyFetches fetch names files k = files k := by
  intro names
  induction names with
  | nil =>
    intro files k _
    rfl
  | cons n rest ih =>
    intro files k hk
    have hkn : k ≠ n := fun h => hk (h ▸ List.mem_cons_self n rest)
    have hkrest : k ∉ rest := fun h => hk (List.mem_cons_of_mem n h)
    cases hfetch : fetch n with
    | ok d =>
      simp only [applyFetches, hfetch]
      rw [ih _ k hkrest]
      simp [updateFile, hkn]
    | error e =>
      simp only [applyFetches, hfetch]
      exact ih _ k hkrest

theorem applyFetches_mem_ok (fetch : String → Except String String) :
    ∀ (names : List String) (files : String → Option String) (n d : String),
      names.Nodup → n ∈ names → fetch n = .ok d →
      applyFetches fetch names files n = some d := by
  intro names
  induction names with
  | nil =>
    intro files n d _ hmem _
    exact absurd hmem (List.not_mem_nil n)
  | cons m rest ih =>
    intro files n d hnodup hmem hf
    rcases List.mem_cons.mp hmem with heq | hmemr
    · subst heq
      simp only [applyFetches, hf]
      have hnr : n ∉ rest := (List.nodup_cons.mp hnodup).1
      rw [applyFetches_not_mem fetch rest _ n hnr]
      simp [updateFile]
    · cases hfm : fetch m with
      | ok dm =>
        simp only [applyFetches, hfm]
        exact ih _ n d (List.nodup_cons.mp hnodup).2 hmemr hf
      | error e =>
        simp only [applyFetches, hfm]
        exact ih _ n d (List.nodup_cons.mp hnodup).2 hmemr hf

theorem applyFetches_mem_err (fetch : String → Except String String) :
    ∀ (names : List String) (files : String → Option String) (n e : String),
      names.Nodup → n ∈ names → fetch n = .error e →
      applyFetches fetch names files n = files n := by
  intro names
  induction names with
  | nil =>
    intro files n e _ hmem _
    exact absurd hmem (List.not_mem_nil n)
  | cons m rest ih =>
    intro files n e hnodup hmem hf
    rcases List.mem_cons.mp hmem with heq | hmemr
    · subst heq
      simp only [applyFetches, hf]
      exact applyFetches_not_mem fetch rest _ n (List.nodup_cons.mp hnodup).1
    · have hnm : n ≠ m := by
        intro h
        exact (List.nodup_cons.mp hnodup).1 (h ▸ hmemr)
      cases hfm : fetch m with
      | ok dm =>
        simp only [applyFetches, hfm]
        rw [ih _ n e (List.nodup_cons.mp hnodup).2 hmemr hf]
        simp [updateFile, hnm]
      | error e2 =>
        simp only [applyFetches, hfm]
        exact ih _ n e (List.nodup_cons.mp hnodup).2 hmemr hf

theorem lookup_map_filter_not (p : String → Bool) (msg : String → String) (k : String)
    (hk : p k = false) : ∀ names : List String,
      ((names.filter p).map (fun n => (n, msg n))).lookup k = none := by
  intro names
  induction names with
  | nil => rfl
  | cons m rest ih =>
    by_cases hm : p m = true
    · rw [List.filter_cons_of_pos hm, List.map_cons]
      have hkm : (k == m) = false := by
        simp only [beq_eq_false_iff_ne, ne_eq]
        intro h
        rw [h, hm] at hk
        exact Bool.noConfusion hk
      simp [List.lookup, hkm, ih]
    · rw [List.filter_cons_of_neg (by simpa using hm)]
      exact ih

theorem lookup_map_filter_mem (p : String → Bool) (msg : String → String) (k : String)
    (hk : p k = true) : ∀ names : List String, k ∈ names →
      ((names.filter p).map (fun n => (n, msg n))).lookup k = some (msg k) := by
  intro names
  induction names with
  | nil =>
    intro hmem
    exact absurd hmem (List.not_mem_nil k)
  | cons m rest ih =>
    intro hmem
    by_cases hkm : k = m
    · subst hkm
      rw [List.filter_cons_of_pos hk, List.map_cons]
      simp [List.lookup]
    · have hmemr : k ∈ rest := by
        rcases List.mem_cons.mp hmem with h | h
        · exact absurd h hkm
        · exact h
      by_cases hm : p m = true
      · rw [List.filter_cons_of_pos hm, List.map_cons]
        have : (k == m) = false := by
          simpa using hkm
        simp [List.lookup, this]
        exact ih hmemr
      · rw [List.filter_cons_of_neg (by simpa using hm)]
        exact ih hmemr

theorem sourceNames_nodup : sourceNames.Nodup := by decide

theorem allTxt_not_source : "all.txt" ∉ sourceNames := by decide

/-! ### Claims about refreshOnce -/

/-- Claim C2: invoking `refreshOnce` while a refresh is already in flight
(`isRefreshing` true) returns immediately with the in-progress signal and the
state unchanged — no file write, no status entry, no listener invocation. -/
theorem claim_C2 {σ : Type} (env : Env σ) (st : St σ) (h : st.isRefreshing = true) :
    refreshOnce env st = (st, RefreshResult.inProgress) := by
  unfold refreshOnce
  rw [h]
  simp

/-- Witness for C2: a concrete environment with the flag already set. -/
theorem claim_C2_witness :
    refreshOnce
        (⟨fun _ => .error "offline", fun _ => none, fun _ => "", fun _ _ => 0, [], "T"⟩ : Env Unit)
        ⟨true, fun _ => none, ()⟩
      = (⟨true, fun _ => none, ()⟩, RefreshResult.inProgress) :=
  claim_C2 _ _ rfl

/-- Claim C5: whenever `refreshOnce` enters the refresh (the flag was false),
the flag is false again in the returned state on every exit path — the
all-success path, the some-source-rejected path, and the catch path taken when
an exception (e.g. `JSON.parse` inside `generateAllMerged`) is raised inside
the refresh body. Listener exceptions are swallowed inside the body and also
reach an exit with the flag cleared. -/
theorem claim_C5 {σ : Type} (env : Env σ) (st : St σ) (h : st.isRefreshing = false) :
    (refreshOnce env st).1.isRefreshing = false := by
  unfold refreshOnce
  rw [h]
  simp only [Bool.false_eq_true, if_false]
  split
  · rfl
  · split
    · rfl
    · rfl

/-- Witness for C5, exercising the internal-exception path: every fetch
succeeds but the fetched text does not parse, so `generateAllMerged` throws
and the catch path runs — the returned flag is still false. -/
theorem claim_C5_witness :
    (refreshOnce
        (⟨fun _ => .ok "not json", fun _ => none, fun _ => "", fun _ _ => 0, [], "T"⟩ : Env Unit)
        ⟨false, fun _ => none, ()⟩).1.isRefreshing = false :=
  claim_C5 _ _ rfl

/-- Claim C4 is a code bug: `needsRefresh` judges a source stale when its file
is absent or older than `THREE_DAYS_MS`, but that constant is
`2 * 24 * 60 * 60 * 1000` = 172800000 ms — two days, not the three days its
name, the comments and the README state. A snapshot aged 200000000 ms
(about 2.3 days) is refreshed by the code although it is younger than the
documented 3-day threshold (259200000 ms). -/
theorem claim_C4_bug :
    THREE_DAYS_MS = 172800000
    ∧ threeDaysSpecMs = 259200000
    ∧ THREE_DAYS_MS ≠ threeDaysSpecMs
    ∧ needsRefresh 200000000 (fun _ => some 0) = true
    ∧ ¬((200000000 : Int) - 0 > threeDaysSpecMs) := by
  refine ⟨by decide, by decide, by decide, ?_, by decide⟩
  decide

/-- Claim C1: if at least one of the four source fetches fails during
`refreshOnce`, the merged `all.txt` is not regenerated (its content is
untouched) and the listener-shared state — in particular the routes-file
cache — is not invalidated (no listener runs), while every source whose fetch
succeeded still has its snapshot file updated with the fetched text. -/
theorem claim_C1 {σ : Type} (env : Env σ) (st : St σ) (n0 e : String)
    (h0 : st.isRefreshing = false) (hn : n0 ∈ sourceNames)
    (hf : env.fetch n0 = .error e) :
    (refreshOnce env st).1.files "all.txt" = st.files "all.txt"
    ∧ (refreshOnce env st).1.lstate = st.lstate
    ∧ (∀ n ∈ sourceNames, ∀ d : String, env.fetch n = .ok d →
        (refreshOnce env st).1.files n = some d) := by
  have hrej : anyRejected env.fetch = true := by
    unfold anyRejected
    rw [List.any_eq_true]
    exact ⟨n0, hn, by simp [exceptOk, hf]⟩
  have hres : refreshOnce env st
      = (⟨false, applyFetches env.fetch sourceNames st.files, st.lstate⟩,
         .done true (successStatuses env.fetch env.ts)) := by
    unfold refreshOnce
    rw [h0]
    simp [hrej]
  rw [hres]
  refine ⟨?_, rfl, ?_⟩
  · exact applyFetches_not_mem env.fetch sourceNames st.files "all.txt" allTxt_not_source
  · intro n hmem d hok
    exact applyFetches_mem_ok env.fetch sourceNames st.files n d sourceNames_nodup hmem hok

/-- Concrete fetch outcome for the C1 witness: the included-games source
fails, the other three succeed. -/
def fetchC1 : String → Except String String :=
  fun n => if n = "plus-games-list.txt" then .error "ETIMEDOUT" else .ok "[]"

/-- Concrete environment for the C1 witness: the real cache-invalidation
listener from part_000 is registered, and the initial state holds a stale
`all.txt` and a populated cache. -/
def envC1 : Env Cache :=
  ⟨fetchC1, fun _ => some [], fun _ => "[]", fun _ _ => 0, [invalidateListener], "T"⟩

def stC1 : St Cache :=
  ⟨false, fun k => if k = "all.txt" then some "OLD MERGED" else none,
   ⟨some [], none, none, none, some []⟩⟩

/-- Witness for C1: with one source failing, `all.txt` keeps its old content
and the cache keeps its populated entries, as instances of `claim_C1`. -/
theorem claim_C1_witness :
    (refreshOnce envC1 stC1).1.files "all.txt" = stC1.files "all.txt"
    ∧ (refreshOnce envC1 stC1).1.lstate = stC1.lstate
    ∧ (∀ n ∈ sourceNames, ∀ d : String, envC1.fetch n = .ok d →
        (refreshOnce envC1 stC1).1.files n = some d) :=
  claim_C1 envC1 stC1 "plus-games-list.txt" "ETIMEDOUT" rfl (by decide) rfl

/-- Claim C6 counterexample: one source (included-games) fails while the
other three succeed. The returned status map has only three entries — there
is no entry at all, let alone a failure entry, for the failed source — so the
claim that "a per-source failure status is recorded ... an entry for each of
the four sources" is false on this run. -/
def fetchC6 : String → Except String String :=
  fun n => if n = "plus-games-list.txt" then .error "ECONNRESET" else .ok "[]"

def envC6 : Env Unit :=
  ⟨fetchC6, fun _ => some [], fun _ => "[]", fun _ _ => 0, [], "T"⟩

def stC6 : St Unit := ⟨false, fun _ => none, ()⟩

/-- Claim C6 counterexample (see `fetchC6`): the failed source has no entry in
the returned status map, which holds exactly the three success entries. -/
theorem claim_C6_counterexample :
    (statusesOf (refreshOnce envC6 stC6).2).lookup "plus-games-list.txt" = none
    ∧ (statusesOf (refreshOnce envC6 stC6).2).length = 3
    ∧ (refreshOnce envC6 stC6).2
        = .done true
            [("ubisoft-classics-list.txt",
               "ubisoft-classics-list.txt refreshed on T successfully"),
             ("plus-classics-list.txt",
               "plus-classics-list.txt refreshed on T successfully"),
             ("plus-monthly-games-list.txt",
               "plus-monthly-games-list.txt refreshed on T successfully")] := by
  refine ⟨rfl, rfl, rfl⟩

/-- Claim C6 (amended): during `refreshOnce`, a source whose fetch fails gets
no write (its file is untouched) and also no entry in the returned status
map — the map holds an entry exactly for each source that succeeded, and the
failure is reported only through the aggregate `anyRejected` flag of the
`{ anyRejected, statuses }` result. -/
theorem claim_C6_statuses {σ : Type} (env : Env σ) (st : St σ) (n0 e : String)
    (h0 : st.isRefreshing = false) (hn : n0 ∈ sourceNames)
    (hf : env.fetch n0 = .error e) :
    (statusesOf (refreshOnce env st).2).lookup n0 = none
    ∧ (refreshOnce env st).1.files n0 = st.files n0
    ∧ (∀ n ∈ sourceNames, ∀ d : String, env.fetch n = .ok d →
        (statusesOf (refreshOnce env st).2).lookup n
          = some (n ++ " refreshed on " ++ env.ts ++ " successfully"))
    ∧ (refreshOnce env st).2 = .done true (successStatuses env.fetch env.ts) := by
  have hrej : anyRejected env.fetch = true := by
    unfold anyRejected
    rw [List.any_eq_true]
    exact ⟨n0, hn, by simp [exceptOk, hf]⟩
  have hres : refreshOnce env st
      = (⟨false, applyFetches env.fetch sourceNames st.files, st.lstate⟩,
         .done true (successStatuses env.fetch env.ts)) := by
    unfold refreshOnce
    rw [h0]
    simp [hrej]
  rw [hres]
  refine ⟨?_, ?_, ?_, rfl⟩
  · unfold successStatuses statusesOf
    exact lookup_map_filter_not _ _ n0 (by simp [exceptOk, hf]) sourceNames
  · exact applyFetches_mem_err env.fetch sourceNames st.files n0 e sourceNames_nodup hn hf
  · intro n hmem d hok
    unfold successStatuses statusesOf
    exact lookup_map_filter_mem _ _ n (by simp [exceptOk, hok]) sourceNames hmem

/-- Witness for C6 (amended), at the same concrete run as the
counterexample. -/
theorem claim_C6_witness :
    (statusesOf (refreshOnce envC6 stC6).2).lookup "plus-games-list.txt" = none
    ∧ (refreshOnce envC6 stC6).1.files "plus-games-list.txt"
        = stC6.files "plus-games-list.txt"
    ∧ (∀ n ∈ sourceNames, ∀ d : String, envC6.fetch n = .ok d →
        (statusesOf (refreshOnce envC6 stC6).2).lookup n
          = some (n ++ " refreshed on " ++ envC6.ts ++ " successfully"))
    ∧ (refreshOnce envC6 stC6).2 = .done true (successStatuses envC6.fetch envC6.ts) :=
  claim_C6_statuses envC6 stC6 "plus-games-list.txt" "ECONNRESET" rfl (by decide) rfl

/-- Claim C7 counterexample setup: a fully successful refresh with two
registered listeners — the first throws, the second appends `2` to an
invocation log. -/
def envC7 : Env (List Nat) :=
  ⟨fun _ => .ok "[]", fun _ => some [], fun _ => "MERGED", fun _ _ => 0,
   [fun _ _ => .error "boom", fun _ s => .ok (s ++ [2])], "T"⟩

def stC7 : St (List Nat) := ⟨false, fun _ => none, []⟩

/-- Claim C7 counterexample: the refresh completes with all sources
succeeding, the first listener's exception is caught (the result is still the
success object `{ anyRejected: false, statuses }`), but the second listener is
never invoked — the log stays empty instead of receiving `2` — because the
`try` in refresher.js lines 124-128 wraps the whole notification loop. -/
theorem claim_C7_counterexample :
    (refreshOnce envC7 stC7).1.lstate = []
    ∧ (refreshOnce envC7 stC7).2
        = .done false
            [("plus-games-list.txt", "plus-games-list.txt refreshed on T successfully"),
             ("ubisoft-classics-list.txt",
               "ubisoft-classics-list.txt refreshed on T successfully"),
             ("plus-classics-list.txt", "plus-classics-list.txt refreshed on T successfully"),
             ("plus-monthly-games-list.txt",
               "plus-monthly-games-list.txt refreshed on T successfully"),
             ("all.txt", "all.txt refreshed on T successfully")] := by
  refine ⟨rfl, rfl⟩

/-- Claim C7 (amended): when a refresh completes with every source succeeding
(and the merge succeeding), the registered listeners are invoked in
registration order with the aggregated status map, but only until the first
listener that throws: that exception is caught and never propagated — the
refresh still returns the success result — while the state updates of the
earlier listeners persist and the remaining listeners are skipped. -/
theorem claim_C7_listeners {σ : Type} (env : Env σ) (st : St σ) (content : String)
    (h0 : st.isRefreshing = false)
    (hok : ∀ n ∈ sourceNames, exceptOk (env.fetch n) = true)
    (hm : generateAllMerged env.parse env.serialize env.lc
        (applyFetches env.fetch sourceNames st.files) = .ok content) :
    (refreshOnce env st).2
      = .done false (successStatuses env.fetch env.ts
          ++ [("all.txt", "all.txt refreshed on " ++ env.ts ++ " successfully")])
    ∧ (refreshOnce env st).1.lstate
      = runListeners env.listeners
          (successStatuses env.fetch env.ts
            ++ [("all.txt", "all.txt refreshed on " ++ env.ts ++ " successfully")])
          st.lstate
    ∧ (∀ (f : Listener σ) (rest : List (Listener σ)) (m : List (String × String))
        (s : σ) (e : String), f m s = .error e → runListeners (f :: rest) m s = s)
    ∧ (∀ (f : Listener σ) (rest : List (Listener σ)) (m : List (String × String))
        (s s2 : σ), f m s = .ok s2 → runListeners (f :: rest) m s = runListeners rest m s2) := by
  have hrej : anyRejected env.fetch = false := by
    unfold anyRejected
    rw [List.any_eq_false]
    intro n hn
    simp [hok n hn]
  have hres : refreshOnce env st
      = (⟨false,
          updateFile (applyFetches env.fetch sourceNames st.files) "all.txt" content,
          runListeners env.listeners
            (successStatuses env.fetch env.ts
              ++ [("all.txt", "all.txt refreshed on " ++ env.ts ++ " successfully")])
            st.lstate⟩,
         .done false (successStatuses env.fetch env.ts
            ++ [("all.txt", "all.txt refreshed on " ++ env.ts ++ " successfully")])) := by
    unfold refreshOnce
    rw [h0]
    simp [hrej, hm]
  rw [hres]
  refine ⟨rfl, rfl, ?_, ?_⟩
  · intro f rest m s e hf
    simp [runListeners, hf]
  · intro f rest m s s2 hf
    simp [runListeners, hf]

/-- Concrete environment for the C7 witness: three listeners — log `1`,
throw, log `3`. Only the first runs; the refresh still succeeds. -/
def envC7w : Env (List Nat) :=
  ⟨fun _ => .ok "[]", fun _ => some [], fun _ => "MERGED", fun _ _ => 0,
   [fun _ s => .ok (s ++ [1]), fun _ _ => .error "boom", fun _ s => .ok (s ++ [3])], "T"⟩

def stC7w : St (List Nat) := ⟨false, fun _ => none, []⟩

/-- Witness for C7 (amended), instantiated at `envC7w`; the resulting log is
concretely `[1]`: the first listener ran, the thrower stopped the loop, the
third never ran, and the refresh still returned the success result. -/
theorem claim_C7_witness :
    ((refreshOnce envC7w stC7w).2
        = .done false (successStatuses envC7w.fetch envC7w.ts
            ++ [("all.txt", "all.txt refreshed on " ++ envC7w.ts ++ " successfully")])
      ∧ (refreshOnce envC7w stC7w).1.lstate
        = runListeners envC7w.listeners
            (successStatuses envC7w.fetch envC7w.ts
              ++ [("all.txt", "all.txt refreshed on " ++ envC7w.ts ++ " successfully")])
            stC7w.lstate)
    ∧ (refreshOnce envC7w stC7w).1.lstate = [1] :=
  ⟨⟨(claim_C7_listeners envC7w stC7w "MERGED" rfl (by decide) rfl).1,
    (claim_C7_listeners envC7w stC7w "MERGED" rfl (by decide) rfl).2.1⟩,
   rfl⟩

end PSPlus
